import Mathlib

/-!
Verification development for the HSK ADC driver (`hsk_adc.c`).

The C module multiplexes one hardware analog-digital converter over 8
channels.  Its mutable state consists of

* `nextChannel` — the scheduler cursor (`ADC_CHANNELS` = 8 acts as the
  "no open channel" sentinel),
* `targets[8]` — per-channel conversion-target pointers (`0` = closed),
* the active conversion-complete interrupt handler (`hsk_isr6.ADCSR0`),
* the `EADC` interrupt-enable flag,
* the hardware request queue (up to `ADC_QUEUE` = 4 pending requests),
* the memory cells addressed by the target pointers.

The shallow embedding below represents this state as `AdcState`, target
pointers as `Option Nat` (an address into `mem`, `none` = null pointer)
and the hardware queue as the list of pending channel requests.  16-bit
(`uword`) arithmetic is modelled as `Nat` arithmetic modulo 65536.

The `close` search loop of the C code indexes `targets[nextChannel]` for
`nextChannel` up to `channel + ADC_CHANNELS - 1`, i.e. it can read past
the end of the 8-entry array.  The embedding makes that explicit: reads
at indices ≥ 8 return the value of an environment parameter `oob`
describing the (undefined) memory behind the array, and the search also
reports whether such a read happened.
-/

set_option maxRecDepth 20000

namespace HskAdc

/-- Number of available ADC channels (`ADC_CHANNELS`). -/
def ADC_CHANNELS : Nat := 8

/-- Number of hardware queue slots (`ADC_QUEUE`). -/
def ADC_QUEUE : Nat := 4

/-- The two ADC resolutions selectable at `hsk_adc_init`
(`ADC_RESOLUTION_8` / `ADC_RESOLUTION_10`). -/
inductive Res where
  | res8 : Res
  | res10 : Res
deriving DecidableEq

/-- The interrupt handlers that the driver installs into
`hsk_isr6.ADCSR0`. -/
inductive Handler where
  | isr10 : Handler
  | isr8 : Handler
  | warmup10 : Handler
deriving DecidableEq

/-- The driver state: statics of `hsk_adc.c` plus the hardware state the
driver interacts with. -/
structure AdcState where
  /-- the `EADC` conversion-complete interrupt enable flag -/
  eadc : Bool
  /-- the resolution written to the `GLOBCTR` DW bit by `hsk_adc_init` -/
  mode : Res
  /-- `targets[i]`: address registered for channel `i`, `none` = null -/
  targets : Fin 8 → Option Nat
  /-- the scheduler cursor `nextChannel`; `ADC_CHANNELS` = no open channel -/
  nextChannel : Nat
  /-- the handler installed in `hsk_isr6.ADCSR0` -/
  handler : Handler
  /-- the memory addressed by target pointers -/
  mem : Nat → Nat
  /-- the hardware request queue (`QINR0` submissions not yet completed) -/
  pending : List (Fin 8)
  /-- the CTC prescaler bits written to `GLOBCTR` by `hsk_adc_init` -/
  ctcReg : Nat
  /-- the sample time written to `INPCR0` by `hsk_adc_init` -/
  stcReg : Nat

/-! ## Timing configuration (`hsk_adc_init`) -/

/-- The numeric resolution the C code derives from the `resolution`
argument (`resolution = resolution == ADC_RESOLUTION_10 ? 10 : 8`). -/
def resBits : Res → Nat
  | .res10 => 10
  | .res8 => 8

/-- The conversion-timing computation of `hsk_adc_init`, in `uword`
(16-bit, modulo 65536) arithmetic exactly as the C code performs it:
`convTime *= 24`, then branch on the fastest prescaler whose maximal
conversion time covers `convTime`, compute the sample time control value
`stc = (convTime - 1) / divisor - 3 - resolution` and clamp values ≥ 256
to 255.  Returns the pair (CTC prescaler bits, STC register value). -/
def adcTiming (resolution : Res) (convTime0 : Nat) : Nat × Nat :=
  let ρ := resBits resolution
  let convTime := convTime0 % 65536 * 24 % 65536
  let ct1 := (convTime + 65536 - 1) % 65536
  let stcOf := fun (d : Nat) => (ct1 / d + 65536 - (3 + ρ)) % 65536
  let clamp := fun (x : Nat) => if x ≥ 256 then 255 else x
  if convTime ≤ 1 + 2 * (258 + ρ) then (0, clamp (stcOf 2))
  else if convTime ≤ 1 + 3 * (258 + ρ) then (1, clamp (stcOf 3))
  else if convTime ≤ 1 + 4 * (258 + ρ) then (2, clamp (stcOf 4))
  else (3, clamp (stcOf 32))

/-- Spec-side definition (follows the words of the Timing Configurator
contract, not the C code): the exact sample-time register value required
at clock divisor `d` for desired conversion time `c`, computed without
any 16-bit wrap-around: `(24c - 1) / d - 3 - resolution` over ℤ. -/
def specStc (ρ c d : Nat) : Int := (24 * c - 1 : Int) / d - 3 - ρ

/-- Spec-side definition: the fastest of the 4 prescalers for which the
required sample-time value is ≤ 255 (falling back to the slowest,
750kHz, when none fits).  Encoded as the CTC bits 0..3. -/
def specCtc (ρ c : Nat) : Nat :=
  if specStc ρ c 2 ≤ 255 then 0
  else if specStc ρ c 3 ≤ 255 then 1
  else if specStc ρ c 4 ≤ 255 then 2
  else 3

/-- The clock divisor that corresponds to each CTC prescaler setting
(12MHz, 8MHz, 6MHz, 750kHz on a 24MHz base clock). -/
def divisorOf : Nat → Nat
  | 0 => 2
  | 1 => 3
  | 2 => 4
  | _ => 32

/-- Spec-side definition: the value the spec requires in the sample-time
register — the exact required value when it lies in 0..255, and the
clamp value 255 otherwise ("clamped to 255, never wrapped"). -/
def specStcWritten (ρ c : Nat) : Nat :=
  let e := specStc ρ c (divisorOf (specCtc ρ c))
  if 0 ≤ e ∧ e ≤ 255 then e.toNat else 255

/-! ## Result delivery handlers (interrupt context) -/

/-- `ADC_RESRxL` channel number bits. -/
def BIT_CHNR : Nat := 0

/-- CHNR bit count. -/
def CNT_CHNR : Nat := 3

/-- `ADC_RESRxLH` conversion result bits. -/
def BIT_RESULT : Nat := 6

/-- RESULT bit count. -/
def CNT_RESULT : Nat := 10

/-- The channel number the delivery handlers read from `ADC_RESR0L`:
`(ADC_RESR0L >> BIT_CHNR) & ((1 << CNT_CHNR) - 1)`. -/
def resrChannel (resr0l : Nat) : Fin 8 :=
  ⟨(resr0l >>> BIT_CHNR) &&& ((1 <<< CNT_CHNR) - 1),
   Nat.lt_succ_of_le (Nat.and_le_right)⟩

/-- The 10-bit result `hsk_adc_isr10` reads from `ADC_RESR0LH`:
`(ADC_RESR0LH >> BIT_RESULT) & ((1 << CNT_RESULT) - 1)`. -/
def resr10Result (resr0lh : Nat) : Nat :=
  (resr0lh >>> BIT_RESULT) &&& ((1 <<< CNT_RESULT) - 1)

/-- `hsk_adc_isr10`: deliver a completed 10-bit conversion.  Reads the
channel and masked result from the result registers and, if a target is
registered for the channel, writes the result through the target
pointer; otherwise memory is untouched. -/
def hsk_adc_isr10 (resr0l resr0lh : Nat) (t : Fin 8 → Option Nat)
    (mem : Nat → Nat) : Nat → Nat :=
  let channel := resrChannel resr0l
  let result := resr10Result resr0lh
  match t channel with
  | none => mem
  | some addr => Function.update mem addr result

/-- `hsk_adc_isr8`: deliver a completed 8-bit conversion.  The result is
the full 8-bit `ADC_RESR0H` register (modelled as the register byte,
i.e. the value modulo 256). -/
def hsk_adc_isr8 (resr0l resr0h : Nat) (t : Fin 8 → Option Nat)
    (mem : Nat → Nat) : Nat → Nat :=
  let channel := resrChannel resr0l
  let result := resr0h % 256
  match t channel with
  | none => mem
  | some addr => Function.update mem addr result

/-- `hsk_adc_isr_warmup10`: the warm-up delivery handler.  It first runs
`hsk_adc_isr10`, then scans all channels; if some registered target
still holds the sentinel `0xffff` (`*targets[i].ptr10 == -1`) the
warm-up handler stays installed, otherwise it hands `hsk_isr6.ADCSR0`
back to `hsk_adc_isr10`.  Returns (new memory, new handler). -/
def hsk_adc_isr_warmup10 (resr0l resr0lh : Nat) (t : Fin 8 → Option Nat)
    (mem : Nat → Nat) (handler : Handler) : (Nat → Nat) × Handler :=
  let mem1 := hsk_adc_isr10 resr0l resr0lh t mem
  if (List.finRange 8).any
      (fun i => match t i with
                | some a => decide (mem1 a = 65535)
                | none => false) then
    (mem1, handler)
  else
    (mem1, .isr10)

/-! ## Initialisation -/

/-- `hsk_adc_init` as it acts on the modelled state: clears the target
list (`memset`), stores the resolution in the `GLOBCTR` DW bit, writes
the timing registers computed by `adcTiming`, installs the delivery
handler matching the resolution and leaves the conversion interrupt
enabled (`EADC = 1`).  The scheduler cursor is a static variable the
function does not touch. -/
def hsk_adc_init (resolution : Res) (convTime : Nat) (s : AdcState) :
    AdcState :=
  { s with
    targets := fun _ => none
    mode := resolution
    ctcReg := (adcTiming resolution convTime).1
    stcReg := (adcTiming resolution convTime).2
    handler := match resolution with
               | .res10 => .isr10
               | .res8 => .isr8
    eadc := true }

/-! ## Channel registration (`hsk_adc_open10` / `hsk_adc_open8`) -/

/-- The successive states of `hsk_adc_open10 channel target`: entry,
after `EADC = 0`, after the target registration, after `EADC = eadc`
(the saved entry value), and after the cursor claim.  If the configured
resolution is not 10 bit the function bails out without any effect. -/
def open10Trace (s0 : AdcState) (channel : Fin 8) (target : Nat) :
    List AdcState :=
  if s0.mode ≠ .res10 then [s0]
  else
    let s1 := { s0 with eadc := false }
    let s2 := { s1 with
                targets := Function.update s1.targets channel (some target) }
    let s3 := { s2 with eadc := s0.eadc }
    let s4 := if s3.nextChannel ≥ ADC_CHANNELS then
                { s3 with nextChannel := channel.val }
              else s3
    [s0, s1, s2, s3, s4]

/-- `hsk_adc_open10`: the final state of `open10Trace`. -/
def hsk_adc_open10 (s : AdcState) (channel : Fin 8) (target : Nat) :
    AdcState :=
  (open10Trace s channel target).getLastD s

/-- The successive states of `hsk_adc_open8` (the 8-bit variant,
identical except for the resolution guard and the pointer field). -/
def open8Trace (s0 : AdcState) (channel : Fin 8) (target : Nat) :
    List AdcState :=
  if s0.mode ≠ .res8 then [s0]
  else
    let s1 := { s0 with eadc := false }
    let s2 := { s1 with
                targets := Function.update s1.targets channel (some target) }
    let s3 := { s2 with eadc := s0.eadc }
    let s4 := if s3.nextChannel ≥ ADC_CHANNELS then
                { s3 with nextChannel := channel.val }
              else s3
    [s0, s1, s2, s3, s4]

/-- `hsk_adc_open8`: the final state of `open8Trace`. -/
def hsk_adc_open8 (s : AdcState) (channel : Fin 8) (target : Nat) :
    AdcState :=
  (open8Trace s channel target).getLastD s

/-! ## Closing a channel (`hsk_adc_close`) -/

/-- A read of `targets[i]` exactly as the C code performs it: indices
below 8 read the array, indices ≥ 8 read the memory behind the array,
whose (undefined) contents are supplied by the environment `oob`. -/
def rawTgt (t : Fin 8 → Option Nat) (oob : Nat → Option Nat) (i : Nat) :
    Option Nat :=
  if h : i < 8 then t ⟨i, h⟩ else oob i

/-- The search loop of `hsk_adc_close`:
`for (; nextChannel < channel + ADC_CHANNELS && !targets[nextChannel].ptr10; nextChannel++);`
run with `fuel = bound - nextChannel` remaining iterations.  Returns the
final value of `nextChannel` together with a flag recording whether any
`targets` read used an index ≥ 8 (an out-of-bounds array access). -/
def closeSearchAux (t : Fin 8 → Option Nat) (oob : Nat → Option Nat) :
    Nat → Nat → Nat × Bool
  | 0, nc => (nc, false)
  | fuel + 1, nc =>
    let oobHere := decide (8 ≤ nc)
    match rawTgt t oob nc with
    | none =>
      let r := closeSearchAux t oob fuel (nc + 1)
      (r.1, oobHere || r.2)
    | some _ => (nc, oobHere)

/-- The successive states of `hsk_adc_close channel`: entry, after
`EADC = 0`, after `targets[channel].ptr10 = 0`, after `EADC = eadc`,
and after the cursor fix-up (search loop, `nextChannel %= ADC_CHANNELS`
and the final "no active channel" check). -/
def closeTrace (oob : Nat → Option Nat) (s0 : AdcState) (channel : Fin 8) :
    List AdcState :=
  let s1 := { s0 with eadc := false }
  let s2 := { s1 with targets := Function.update s1.targets channel none }
  let s3 := { s2 with eadc := s0.eadc }
  let s4 :=
    if s3.nextChannel = channel.val then
      let nc1 := (closeSearchAux s3.targets oob
                   (channel.val + ADC_CHANNELS - s3.nextChannel)
                   s3.nextChannel).1
      let nc2 := nc1 % ADC_CHANNELS
      let nc3 := if (rawTgt s3.targets oob nc2).isNone then ADC_CHANNELS
                 else nc2
      { s3 with nextChannel := nc3 }
    else s3
  [s0, s1, s2, s3, s4]

/-- `hsk_adc_close`: the final state of `closeTrace`. -/
def hsk_adc_close (oob : Nat → Option Nat) (s : AdcState)
    (channel : Fin 8) : AdcState :=
  (closeTrace oob s channel).getLastD s

/-- Whether the search loop of `hsk_adc_close channel` performs a
`targets` read at an index ≥ 8, i.e. past the end of the array. -/
def closeReadsOOB (oob : Nat → Option Nat) (s : AdcState)
    (channel : Fin 8) : Bool :=
  let t2 := Function.update s.targets channel none
  if s.nextChannel = channel.val then
    (closeSearchAux t2 oob (channel.val + ADC_CHANNELS - s.nextChannel)
      s.nextChannel).2
  else false

/-! ## Queue submission (`hsk_adc_request`) -/

/-- `QSR0` filling-level bits position. -/
def BIT_FILL : Nat := 0

/-- Filling-level bit count. -/
def CNT_FILL : Nat := 2

/-- `QSR0` queue-empty bit. -/
def BIT_EMPTY : Nat := 5

/-- Modelled from the spec (hardware behaviour, not part of the C
sources): the `ADC_QSR0` queue status value for a hardware queue
currently holding `p` pending requests (`p ≤ 4`): the EMPTY flag
(bit 5) is set iff `p = 0`, and otherwise the filling-level bits 1..0
hold `p - 1`. -/
def qsrOf (p : Nat) : Nat :=
  if p = 0 then 1 <<< BIT_EMPTY else p - 1

/-- `hsk_adc_request`: refuse with `false` if the queue status shows a
full queue (`(QSR0 & (FILL-mask | EMPTY)) == (ADC_QUEUE - 1) << BIT_FILL`),
otherwise write the channel into `ADC_QINR0` (modelled as appending the
request to the pending queue) and return `true`. -/
def hsk_adc_request (s : AdcState) (channel : Fin 8) : Bool × AdcState :=
  if qsrOf s.pending.length &&&
       ((((1 <<< CNT_FILL) - 1) <<< BIT_FILL) ||| (1 <<< BIT_EMPTY))
     = (ADC_QUEUE - 1) <<< BIT_FILL then
    (false, s)
  else
    (true, { s with pending := s.pending ++ [channel] })

/-! ## Scheduling (`hsk_adc_service`) -/

/-- The cursor-advance loop of `hsk_adc_service`
(`while (!targets[++nextChannel % ADC_CHANNELS].ptr10);` followed by
`nextChannel %= ADC_CHANNELS`), over the channel-open map `b`:
the first of `c+1, c+2, ..., c+8` (reduced mod 8) whose channel is open,
or `none` if no channel at all is open — in which case the C loop never
terminates. -/
def advanceB (b : Fin 8 → Bool) (c : Nat) : Option (Fin 8) :=
  (((List.range 8).map (fun i => c + 1 + i)).find?
      (fun k => b ⟨k % 8, Nat.mod_lt k (by decide)⟩)).map
    (fun k => ⟨k % 8, Nat.mod_lt k (by decide)⟩)

/-- The channel-open map induced by the target registry. -/
def bmap (t : Fin 8 → Option Nat) : Fin 8 → Bool :=
  fun i => (t i).isSome

/-- `hsk_adc_service`: returns `none` when the C function would hang in
its advance loop (no open channel while the cursor is < 8), otherwise
`some (returned bool, channel requested if any, new state)`.  When the
cursor is ≥ `ADC_CHANNELS` it returns `false` immediately; otherwise it
requests the cursor channel, and on success advances the cursor to the
next open channel and returns `true`; on a full queue it returns `false`
leaving the cursor untouched. -/
def hsk_adc_service (s : AdcState) :
    Option (Bool × Option (Fin 8) × AdcState) :=
  if h : ADC_CHANNELS ≤ s.nextChannel then some (false, none, s)
  else
    let ch : Fin 8 := ⟨s.nextChannel, Nat.lt_of_not_le h⟩
    match hsk_adc_request s ch with
    | (true, s1) =>
      match advanceB (bmap s1.targets) s1.nextChannel with
      | some nc => some (true, some ch, { s1 with nextChannel := nc.val })
      | none => none
    | (false, s1) => some (false, none, s1)

/-! ## Hardware completion of a pending request -/

/-- One conversion completion: the oldest pending request finishes with
raw result `r` and the installed interrupt handler runs (the result
registers hold the channel in the CHNR bits and, for 10-bit mode, the
result in bits 15..6 of `RESR0LH`). -/
def completeOne (s : AdcState) (r : Nat) : AdcState :=
  match s.pending with
  | [] => s
  | ch :: rest =>
    match s.handler with
    | .isr10 =>
      { s with pending := rest
               mem := hsk_adc_isr10 ch.val (r <<< 6) s.targets s.mem }
    | .isr8 =>
      { s with pending := rest
               mem := hsk_adc_isr8 ch.val r s.targets s.mem }
    | .warmup10 =>
      let mh := hsk_adc_isr_warmup10 ch.val (r <<< 6) s.targets s.mem
                  s.handler
      { s with pending := rest, mem := mh.1, handler := mh.2 }

/-! ## Warm-up (`hsk_adc_warmup10`) -/

/-- The successive states of the set-up phase of `hsk_adc_warmup10`:
entry, after writing the sentinel `0xffff` through every registered
target, after `EADC = 0`, after installing the warm-up handler, and
after `EADC = 1`.  A resolution mismatch bails out with no effect.  The
driving `while` loop that follows is modelled by `warmupLoopRun`. -/
def warmup10Trace (s0 : AdcState) : List AdcState :=
  if s0.mode ≠ .res10 then [s0]
  else
    let s1 := { s0 with
                mem := (List.finRange 8).foldl
                  (fun m i => (s0.targets i).elim m
                    (fun a => Function.update m a 65535))
                  s0.mem }
    let s2 := { s1 with eadc := false }
    let s3 := { s2 with handler := .warmup10 }
    let s4 := { s3 with eadc := true }
    [s0, s1, s2, s3, s4]

/-- The set-up phase of `hsk_adc_warmup10` (everything before the
driving loop). -/
def hsk_adc_warmup10Setup (s : AdcState) : AdcState :=
  (warmup10Trace s).getLastD s

/-- One iteration of the warm-up driving loop
`while (hsk_isr6.ADCSR0 == &hsk_adc_isr_warmup10) hsk_adc_service();`:
a `hsk_adc_service` call followed by the hardware completing at most one
pending conversion with raw result `r`.  (If `hsk_adc_service` itself
would hang, the state is returned unchanged.) -/
def warmupLoopStep (s : AdcState) (r : Nat) : AdcState :=
  match hsk_adc_service s with
  | none => s
  | some (_, _, s1) => completeOne s1 r

/-- The warm-up driving loop run over a list of conversion results. -/
def warmupLoopRun (s : AdcState) : List Nat → AdcState
  | [] => s
  | r :: rs => warmupLoopRun (warmupLoopStep s r) rs

/-! ## Concrete states -/

/-- The C statics at program start: `nextChannel = ADC_CHANNELS`, all
targets null, nothing pending, interrupt masked, memory zero. -/
def startState : AdcState :=
  { eadc := false
    mode := .res8
    targets := fun _ => none
    nextChannel := ADC_CHANNELS
    handler := .isr8
    mem := fun _ => 0
    pending := []
    ctcReg := 0
    stcReg := 0 }

/-- The state after `hsk_adc_init(ADC_RESOLUTION_10, 5)` from program
start: 10-bit mode, all channels closed, cursor at the sentinel. -/
def initState : AdcState := hsk_adc_init .res10 5 startState

/-- The environment in which the memory behind the `targets` array reads
as zero (null pointers). -/
def oobZero : Nat → Option Nat := fun _ => none

/-! ## Iterated service runs (round-robin analysis) -/

/-- A raw cursor value reduced to a channel index. -/
def cursorFin (n : Nat) : Fin 8 := ⟨n % 8, Nat.mod_lt n (by decide)⟩

/-- Whether the channel a raw cursor value denotes is open. -/
def openAt (t : Fin 8 → Option Nat) (n : Nat) : Bool := bmap t (cursorFin n)

/-- `N` consecutive `hsk_adc_service` calls that all return `true`, the
hardware completing each queued conversion (with raw result 0) before
the next call, collecting the requested channels in order.  `none` if
some call returns `false` or hangs. -/
def serviceDrainRun : AdcState → Nat → Option (List (Fin 8) × AdcState)
  | s, 0 => some ([], s)
  | s, N + 1 =>
    match hsk_adc_service s with
    | some (true, some ch, s1) =>
      match serviceDrainRun (completeOne s1 0) N with
      | some (tr, s2) => some (ch :: tr, s2)
      | none => none
    | _ => none

/-- The cursor value after one successful advance (`advanceB`), with the
current cursor as the (unreachable) fallback. -/
def stepB (b : Fin 8 → Bool) (c : Fin 8) : Fin 8 := (advanceB b c.val).getD c

/-- The state a successful `hsk_adc_service` call leaves behind when it
starts from an open cursor channel and an empty queue: the cursor
channel is queued and the cursor advanced to the next open channel. -/
def afterService (s : AdcState) : AdcState :=
  { s with
    pending := [cursorFin s.nextChannel]
    nextChannel := (stepB (bmap s.targets) (cursorFin s.nextChannel)).val }

/-- `stepB` iterated. -/
def iterB (b : Fin 8 → Bool) : Nat → Fin 8 → Fin 8
  | 0, c => c
  | n + 1, c => iterB b n (stepB b c)

/-- The cursor values visited by `n` successive advances, starting at
(and including) `c`. -/
def orbit (b : Fin 8 → Bool) : Nat → Fin 8 → List (Fin 8)
  | 0, _ => []
  | n + 1, c => c :: orbit b n (stepB b c)

/-- The number of open channels. -/
def countB (b : Fin 8 → Bool) : Nat :=
  ((List.finRange 8).filter (fun i => b i)).length

/-! ## Timing correctness predicate -/

/-- The timing computation agrees with the spec-side contract at desired
conversion time `c`, for both resolutions. -/
def timingOk (c : Nat) : Prop :=
  adcTiming .res8 c = (specCtc 8 c, specStcWritten 8 c) ∧
  adcTiming .res10 c = (specCtc 10 c, specStcWritten 10 c)

instance : DecidablePred timingOk := fun c => by
  unfold timingOk; infer_instance

/-! ## Concrete states used by the individual claims -/

/-- Only channel 1 open (registered to address 100), cursor at 1. -/
def soloState : AdcState := hsk_adc_open10 initState 1 100

/-- Channels 1 (address 100) and 0 (address 200) open, cursor at 1. -/
def twoOpenState : AdcState := hsk_adc_open10 soloState 0 200

/-- The state `close(1)` (with zeroed memory behind the array) leaves
behind from `twoOpenState`: channel 0 still open, cursor at the
sentinel. -/
def bugState : AdcState := hsk_adc_close oobZero twoOpenState 1

/-- Channels 2 (address 10) and 5 (address 20) open, cursor at 2. -/
def pairState : AdcState := hsk_adc_open10 (hsk_adc_open10 initState 2 10) 5 20

/-- A caller that has masked the conversion interrupt (`EADC = 0`). -/
def maskState : AdcState := { initState with eadc := false }

/-- The state of the zero-open-channels warm-up scenario right after the
set-up phase of `hsk_adc_warmup10`, at the entry of the driving loop. -/
def warmupIdleState : AdcState := hsk_adc_warmup10Setup initState

/-- All-zero memory. -/
def memZero : Nat → Nat := fun _ => 0

/-! ## Timing configurator (claim C4) -/

theorem timing_block0 : ∀ i : Nat, i < 256 → timingOk (256 * 0 + i) := by decide

theorem timing_block1 : ∀ i : Nat, i < 256 → timingOk (256 * 1 + i) := by decide

theorem timing_block2 : ∀ i : Nat, i < 256 → timingOk (256 * 2 + i) := by decide

theorem timing_block3 : ∀ i : Nat, i < 256 → timingOk (256 * 3 + i) := by decide

theorem timing_block4 : ∀ i : Nat, i < 256 → timingOk (256 * 4 + i) := by decide

theorem timing_block5 : ∀ i : Nat, i < 256 → timingOk (256 * 5 + i) := by decide

theorem timing_block6 : ∀ i : Nat, i < 256 → timingOk (256 * 6 + i) := by decide

theorem timing_block7 : ∀ i : Nat, i < 256 → timingOk (256 * 7 + i) := by decide

theorem timing_block8 : ∀ i : Nat, i < 256 → timingOk (256 * 8 + i) := by decide

theorem timing_block9 : ∀ i : Nat, i < 256 → timingOk (256 * 9 + i) := by decide

theorem timing_block10 : ∀ i : Nat, i < 171 → timingOk (256 * 10 + i) := by decide

/-- The timing computation matches the spec contract for every desired
conversion time up to 2730, the largest value whose tick count `24 * c`
still fits the 16-bit `uword`. -/
theorem timingOk_all : ∀ c : Nat, c ≤ 2730 → timingOk c := by
  intro c hc
  rcases Nat.lt_or_ge c 256 with h | h
  · have hx := timing_block0 c h
    rwa [show 256 * 0 + c = c by omega] at hx
  rcases Nat.lt_or_ge c 512 with h2 | h2
  · have hx := timing_block1 (c - 256) (by omega)
    rwa [show 256 * 1 + (c - 256) = c by omega] at hx
  rcases Nat.lt_or_ge c 768 with h3 | h3
  · have hx := timing_block2 (c - 512) (by omega)
    rwa [show 256 * 2 + (c - 512) = c by omega] at hx
  rcases Nat.lt_or_ge c 1024 with h4 | h4
  · have hx := timing_block3 (c - 768) (by omega)
    rwa [show 256 * 3 + (c - 768) = c by omega] at hx
  rcases Nat.lt_or_ge c 1280 with h5 | h5
  · have hx := timing_block4 (c - 1024) (by omega)
    rwa [show 256 * 4 + (c - 1024) = c by omega] at hx
  rcases Nat.lt_or_ge c 1536 with h6 | h6
  · have hx := timing_block5 (c - 1280) (by omega)
    rwa [show 256 * 5 + (c - 1280) = c by omega] at hx
  rcases Nat.lt_or_ge c 1792 with h7 | h7
  · have hx := timing_block6 (c - 1536) (by omega)
    rwa [show 256 * 6 + (c - 1536) = c by omega] at hx
  rcases Nat.lt_or_ge c 2048 with h8 | h8
  · have hx := timing_block7 (c - 1792) (by omega)
    rwa [show 256 * 7 + (c - 1792) = c by omega] at hx
  rcases Nat.lt_or_ge c 2304 with h9 | h9
  · have hx := timing_block8 (c - 2048) (by omega)
    rwa [show 256 * 8 + (c - 2048) = c by omega] at hx
  rcases Nat.lt_or_ge c 2560 with h10 | h10
  · have hx := timing_block9 (c - 2304) (by omega)
    rwa [show 256 * 9 + (c - 2304) = c by omega] at hx
  have hx := timing_block10 (c - 2560) (by omega)
  rwa [show 256 * 10 + (c - 2560) = c by omega] at hx

/-- C4 (amended): for every resolution and every desired conversion time
from 1 to 2730 — the range in which the 16-bit computation
`convTime *= 24` cannot wrap — `hsk_adc_init` selects exactly the
prescaler the spec demands (the fastest of the 4 whose exact required
sample-time value is ≤ 255, the slowest if none fits) and writes the
exact sample-time value when it lies in 0..255 and the clamp value 255
otherwise; in particular the written value is never a wrapped-around
small value. -/
theorem claim_C4_timing_no_overflow (r : Res) (c : Nat) (h1 : 1 ≤ c)
    (h2 : c ≤ 2730) :
    adcTiming r c = (specCtc (resBits r) c, specStcWritten (resBits r) c) := by
  have hok := timingOk_all c h2
  cases r
  · exact hok.1
  · exact hok.2

/-- Witness for C4: the amended claim evaluated at resolution 10 bit and
conversion time 100. -/
theorem claim_C4_timing_witness :
    (1 ≤ 100 ∧ 100 ≤ 2730) ∧
    adcTiming .res10 100 = (specCtc 10 100, specStcWritten 10 100) :=
  ⟨by decide, claim_C4_timing_no_overflow .res10 100 (by decide) (by decide)⟩

/-- C4 counterexample: at desired conversion time 2764 (8-bit mode) the
tick computation wraps modulo 2^16 (24·2764 = 66336 ≡ 800), so the code
selects the 6MHz prescaler and writes the wrapped-around small value 188
— while the spec contract demands the slowest prescaler with the clamp
value 255 (no prescaler's exact required sample time, all ≥ 16572, fits
in 8 bits). -/
theorem claim_C4_overflow_counterexample :
    adcTiming .res8 2764 = (2, 188) ∧
    specCtc 8 2764 = 3 ∧ specStcWritten 8 2764 = 255 ∧
    adcTiming .res8 2764 ≠ (specCtc 8 2764, specStcWritten 8 2764) := by
  decide

/-! ## Queue submission (claim C5) -/

/-- C5: with at most `ADC_QUEUE` = 4 requests pending (the hardware
bound), `hsk_adc_request` returns `false` exactly when the queue holds 4
pending requests; in that case it does not touch the request register
(no state change), otherwise it submits the channel and returns `true`
— so the number of pending requests never exceeds 4. -/
theorem claim_C5_request_queue_bound (s : AdcState) (ch : Fin 8)
    (hp : s.pending.length ≤ ADC_QUEUE) :
    ((hsk_adc_request s ch).1 = false ↔ s.pending.length = ADC_QUEUE) ∧
    ((hsk_adc_request s ch).1 = false → (hsk_adc_request s ch).2 = s) ∧
    ((hsk_adc_request s ch).1 = true →
      (hsk_adc_request s ch).2.pending = s.pending ++ [ch]) ∧
    (hsk_adc_request s ch).2.pending.length ≤ ADC_QUEUE := by
  have hfull : (qsrOf s.pending.length &&&
      ((((1 <<< CNT_FILL) - 1) <<< BIT_FILL) ||| (1 <<< BIT_EMPTY))
      = (ADC_QUEUE - 1) <<< BIT_FILL) ↔ s.pending.length = ADC_QUEUE := by
    unfold ADC_QUEUE at hp ⊢
    set n := s.pending.length with hn
    interval_cases n <;> simp [qsrOf, CNT_FILL, BIT_FILL, BIT_EMPTY] <;> decide
  by_cases hq : s.pending.length = ADC_QUEUE
  · unfold hsk_adc_request
    rw [if_pos (hfull.mpr hq)]
    exact ⟨by simp [hq], fun _ => rfl, by simp, by rw [hq]⟩
  · unfold hsk_adc_request
    rw [if_neg (fun hc => hq (hfull.mp hc))]
    refine ⟨by simp [hq], by simp, fun _ => rfl, ?_⟩
    simp only [List.length_append, List.length_cons, List.length_nil]
    unfold ADC_QUEUE at hp hq ⊢
    omega

/-- Witness for C5: the bound applied to the freshly initialised driver
(empty queue) requesting channel 0. -/
theorem claim_C5_request_witness :
    initState.pending.length ≤ ADC_QUEUE ∧
    (((hsk_adc_request initState 0).1 = false ↔
        initState.pending.length = ADC_QUEUE) ∧
     ((hsk_adc_request initState 0).1 = false →
        (hsk_adc_request initState 0).2 = initState) ∧
     ((hsk_adc_request initState 0).1 = true →
        (hsk_adc_request initState 0).2.pending = initState.pending ++ [0]) ∧
     (hsk_adc_request initState 0).2.pending.length ≤ ADC_QUEUE) :=
  ⟨by decide, claim_C5_request_queue_bound initState 0 (by decide)⟩

/-! ## Result delivery (claim C6) -/

/-- C6: on a completion event the delivery handlers write exactly the
raw conversion result, masked to the result width (10 bits for
`hsk_adc_isr10`, the 8-bit register byte for `hsk_adc_isr8`), through
the registered target of the completed channel — a single memory-cell
update — and perform no write at all when no target is registered. -/
theorem claim_C6_delivery (resr0l resr0lh resr0h : Nat)
    (t : Fin 8 → Option Nat) (mem : Nat → Nat) :
    (∀ a, t (resrChannel resr0l) = some a →
      hsk_adc_isr10 resr0l resr0lh t mem
          = Function.update mem a (resr10Result resr0lh) ∧
      hsk_adc_isr8 resr0l resr0h t mem
          = Function.update mem a (resr0h % 256)) ∧
    (t (resrChannel resr0l) = none →
      hsk_adc_isr10 resr0l resr0lh t mem = mem ∧
      hsk_adc_isr8 resr0l resr0h t mem = mem) := by
  constructor
  · intro a ha
    constructor <;> simp only [hsk_adc_isr10, hsk_adc_isr8, ha]
  · intro ha
    constructor <;> simp only [hsk_adc_isr10, hsk_adc_isr8, ha]

/-- Witness for C6: a completion for channel 2 with raw result registers
all ones, delivered into the target of `pairState` (channel 2 registered
at address 10). -/
theorem claim_C6_delivery_witness :
    pairState.targets (resrChannel 2) = some 10 ∧
    hsk_adc_isr10 2 65535 pairState.targets memZero
      = Function.update memZero 10 (resr10Result 65535) :=
  ⟨by decide,
   ((claim_C6_delivery 2 65535 0 pairState.targets memZero).1 10
      (by decide)).1⟩

/-! ## Warm-up sentinel (claim C9) -/

/-- The sentinel-writing loop of `hsk_adc_warmup10` only ever writes
65535, so a cell that already holds 65535 keeps it. -/
theorem sentinel_keep (t : Fin 8 → Option Nat) (b : Nat) :
    ∀ (l : List (Fin 8)) (m : Nat → Nat), m b = 65535 →
      (l.foldl (fun m i => (t i).elim m
        (fun a => Function.update m a 65535)) m) b = 65535 := by
  intro l
  induction l with
  | nil =>
    intro m hm
    simpa using hm
  | cons hd tl ih =>
    intro m hm
    rw [List.foldl_cons]
    apply ih
    have hgen : ∀ o : Option Nat,
        (o.elim m (fun a => Function.update m a 65535)) b = 65535 := by
      intro o
      cases o with
      | none => simpa using hm
      | some a =>
        by_cases hab : b = a
        · subst hab
          simp [Function.update_same]
        · simpa [Function.update_noteq hab] using hm
    exact hgen (t hd)

/-- The sentinel-writing loop of `hsk_adc_warmup10` puts 65535 into the
cell addressed by any registered target that appears in the loop. -/
theorem sentinel_hits (t : Fin 8 → Option Nat) (b : Nat) :
    ∀ (l : List (Fin 8)) (m : Nat → Nat) (i : Fin 8), i ∈ l →
      t i = some b →
      (l.foldl (fun m i => (t i).elim m
        (fun a => Function.update m a 65535)) m) b = 65535 := by
  intro l
  induction l with
  | nil =>
    intro m i hi
    exact absurd hi (List.not_mem_nil i)
  | cons hd tl ih =>
    intro m i hi hib
    rw [List.foldl_cons]
    rcases List.mem_cons.mp hi with rfl | hmem
    · apply sentinel_keep
      rw [hib]
      exact Function.update_same b 65535 m
    · exact ih _ i hmem hib

/-- C9: the warm-up sentinel 0xffff lies outside the deliverable result
range.  The set-up phase of `hsk_adc_warmup10` puts 65535 into every
registered target; every value `hsk_adc_isr10` delivers is masked to 10
bits, hence < 1024 and in particular ≠ 65535, so one delivered
completion always replaces the sentinel with a non-sentinel value. -/
theorem claim_C9_sentinel_range (s : AdcState) (i : Fin 8) (b : Nat)
    (resr0l resr0lh : Nat) (t : Fin 8 → Option Nat) (mem : Nat → Nat)
    (a : Nat) (hmode : s.mode = .res10) (hreg : s.targets i = some b)
    (ht : t (resrChannel resr0l) = some a) :
    (hsk_adc_warmup10Setup s).mem b = 65535 ∧
    resr10Result resr0lh < 1024 ∧
    hsk_adc_isr10 resr0l resr0lh t mem a = resr10Result resr0lh ∧
    hsk_adc_isr10 resr0l resr0lh t mem a ≠ 65535 := by
  have hsmall : resr10Result resr0lh < 1024 := by
    have hle : (resr0lh >>> BIT_RESULT) &&& ((1 <<< CNT_RESULT) - 1)
        ≤ (1 <<< CNT_RESULT) - 1 := Nat.and_le_right
    simp only [resr10Result, CNT_RESULT] at hle ⊢
    omega
  have hval : hsk_adc_isr10 resr0l resr0lh t mem a = resr10Result resr0lh := by
    simp only [hsk_adc_isr10, ht, Function.update_same]
  refine ⟨?_, hsmall, hval, by omega⟩
  unfold hsk_adc_warmup10Setup warmup10Trace
  rw [if_neg (by simp [hmode])]
  simp only [List.getLastD_cons, List.getLastD_nil]
  exact sentinel_hits s.targets b (List.finRange 8) s.mem i
    (List.mem_finRange i) hreg

/-- Witness for C9: `soloState` (channel 1 registered at address 100)
and a completion for channel 1 with result registers all ones. -/
theorem claim_C9_sentinel_range_witness :
    (soloState.mode = Res.res10 ∧ soloState.targets 1 = some 100 ∧
     soloState.targets (resrChannel 1) = some 100) ∧
    ((hsk_adc_warmup10Setup soloState).mem 100 = 65535 ∧
     resr10Result 65535 < 1024 ∧
     hsk_adc_isr10 1 65535 soloState.targets memZero 100 = resr10Result 65535 ∧
     hsk_adc_isr10 1 65535 soloState.targets memZero 100 ≠ 65535) :=
  ⟨⟨by decide, by decide, by decide⟩,
   claim_C9_sentinel_range soloState 1 100 1 65535 soloState.targets memZero
     100 (by decide) (by decide) (by decide)⟩

/-! ## Critical sections (claim C8) -/

/-- C8 (amended): the target registration of `hsk_adc_open10` and the
target clearing of `hsk_adc_close` execute with `EADC` cleared, and both
functions restore the entry value of `EADC` on exit; the handler swap of
`hsk_adc_warmup10` also executes with `EADC` cleared, but on exit the
flag is unconditionally enabled rather than restored to its entry
value. -/
theorem claim_C8_critical_sections (s : AdcState) (c : Fin 8) (a : Nat)
    (oob : Nat → Option Nat) (hmode : s.mode = .res10) :
    ((hsk_adc_open10 s c a).eadc = s.eadc) ∧
    (∃ u, (open10Trace s c a).get? 2 = some u ∧ u.eadc = false ∧
      u.targets c = some a) ∧
    ((hsk_adc_close oob s c).eadc = s.eadc) ∧
    (∃ v, (closeTrace oob s c).get? 2 = some v ∧ v.eadc = false ∧
      v.targets c = none) ∧
    ((hsk_adc_warmup10Setup s).eadc = true) ∧
    (∃ w, (warmup10Trace s).get? 3 = some w ∧ w.eadc = false ∧
      w.handler = .warmup10) := by
  have hm : ¬ (s.mode ≠ Res.res10) := by simp [hmode]
  refine ⟨?_, ?_, ?_, ?_, ?_, ?_⟩
  · unfold hsk_adc_open10 open10Trace
    rw [if_neg hm]
    simp only [List.getLastD_cons, List.getLastD_nil]
    split <;> rfl
  · unfold open10Trace
    rw [if_neg hm]
    exact ⟨_, rfl, rfl, Function.update_same c (some a) s.targets⟩
  · unfold hsk_adc_close closeTrace
    simp only [List.getLastD_cons, List.getLastD_nil]
    split <;> rfl
  · exact ⟨_, rfl, rfl, Function.update_same c none s.targets⟩
  · unfold hsk_adc_warmup10Setup warmup10Trace
    rw [if_neg hm]
    rfl
  · unfold warmup10Trace
    rw [if_neg hm]
    exact ⟨_, rfl, rfl, rfl⟩

/-- Witness for C8: the critical-section facts at a caller that had
masked the interrupt (`maskState`, `EADC = 0`), channel 3, target
address 77. -/
theorem claim_C8_critical_sections_witness :
    maskState.mode = Res.res10 ∧
    (((hsk_adc_open10 maskState 3 77).eadc = maskState.eadc) ∧
     (∃ u, (open10Trace maskState 3 77).get? 2 = some u ∧ u.eadc = false ∧
       u.targets 3 = some 77) ∧
     ((hsk_adc_close oobZero maskState 3).eadc = maskState.eadc) ∧
     (∃ v, (closeTrace oobZero maskState 3).get? 2 = some v ∧
       v.eadc = false ∧ v.targets 3 = none) ∧
     ((hsk_adc_warmup10Setup maskState).eadc = true) ∧
     (∃ w, (warmup10Trace maskState).get? 3 = some w ∧ w.eadc = false ∧
       w.handler = .warmup10)) :=
  ⟨by decide, claim_C8_critical_sections maskState 3 77 oobZero (by decide)⟩

/-- C8 counterexample: a caller that enters `hsk_adc_warmup10` with the
conversion interrupt masked (`EADC = 0`) finds it enabled after the
handler swap — the entry value of the flag is not restored (the claim
as stated requires `eadc` back at `false` here). -/
theorem claim_C8_warmup_restore_counterexample :
    maskState.eadc = false ∧ (hsk_adc_warmup10Setup maskState).eadc = true := by
  constructor
  · rfl
  · rfl

/-! ## The close cursor search (claims C1, C10) and its consequences
(claims C2, C3) -/

/-- C1 (code bug): from the reachable state `twoOpenState` (channels 0
and 1 open, cursor at 1), `close(1)` leaves channel 0 registered but
sets the cursor to the sentinel `ADC_CHANNELS`: the forward search does
not wrap — it runs past the end of the `targets` array (reading zeroed
memory behind it) instead of wrapping to index 0, so the cursor is
"none" although a channel remains open. -/
theorem claim_C1_close_loses_open_channel :
    bugState.targets 0 = some 200 ∧ bugState.targets 1 = none ∧
    bugState.nextChannel = ADC_CHANNELS := by
  decide

/-- C2 (code bug): in the reachable state `bugState` (channel 0 open,
cursor at the sentinel after the buggy `close(1)`), `hsk_adc_service`
returns `false` and changes nothing — and therefore returns `false` on
every subsequent call — although a channel is open and the queue has
capacity. -/
theorem claim_C2_service_false_despite_open_channel :
    bugState.targets 0 = some 200 ∧
    hsk_adc_service bugState = some (false, none, bugState) :=
  ⟨by decide, rfl⟩

/-- C10 (code bug): in the reachable state `soloState` (only channel 1
open, cursor at 1), the search loop of `close(1)` reads `targets[8]` —
an index outside 0..7, past the end of the array. -/
theorem claim_C10_close_oob_read :
    closeReadsOOB oobZero soloState 1 = true := by
  decide

/-- One iteration of the warm-up driving loop is a no-op on
`warmupIdleState` (no channel open, cursor at the sentinel, nothing
pending): `hsk_adc_service` returns `false` immediately and no
completion can fire. -/
theorem warmupLoopStep_idle (r : Nat) :
    warmupLoopStep warmupIdleState r = warmupIdleState := rfl

/-- C3 (code bug): called with zero channels open, `hsk_adc_warmup10`
never returns: after the set-up phase the warm-up handler is installed,
and no matter how many driving-loop iterations run (with arbitrary
completion results), the state — in particular the installed handler —
never changes, so the loop condition
`hsk_isr6.ADCSR0 == &hsk_adc_isr_warmup10` stays true forever and the
warm-up ISR that would end the loop never executes. -/
theorem claim_C3_warmup_never_terminates_zero_open :
    warmupIdleState.handler = Handler.warmup10 ∧
    ∀ rs : List Nat, warmupLoopRun warmupIdleState rs = warmupIdleState := by
  constructor
  · rfl
  · intro rs
    induction rs with
    | nil => rfl
    | cons r rs ih =>
      rw [warmupLoopRun, warmupLoopStep_idle]
      exact ih

/-! ## Round-robin fairness (claim C7) -/

/-- A raw cursor below 8 reduces to itself. -/
theorem cursorFin_lt (n : Nat) (h : n < 8) : cursorFin n = ⟨n, h⟩ :=
  Fin.eq_of_val_eq (Nat.mod_eq_of_lt h)

/-- A channel index round-trips through `cursorFin`. -/
theorem cursorFin_fin (d : Fin 8) : cursorFin d.val = d :=
  Fin.eq_of_val_eq (Nat.mod_eq_of_lt d.isLt)

/-- From an open channel the advance loop of `hsk_adc_service` finds
the next open channel (possibly the same one after a full wrap). -/
theorem advanceB_step : ∀ (b : Fin 8 → Bool) (c : Fin 8), b c = true →
    advanceB b c.val = some (stepB b c) ∧ b (stepB b c) = true := by
  decide

/-- Starting from an open channel, `countB b` advances return to the
start; the visited channels are pairwise distinct and are exactly the
open channels; at least one channel is open. -/
theorem orbit_cycle : ∀ (b : Fin 8 → Bool) (c : Fin 8), b c = true →
    iterB b (countB b) c = c ∧ (orbit b (countB b) c).Nodup ∧
    (∀ x : Fin 8, b x = true → x ∈ orbit b (countB b) c) ∧
    1 ≤ countB b := by
  decide

/-- The orbit of `n` advances has length `n`. -/
theorem orbit_length (b : Fin 8 → Bool) :
    ∀ (n : Nat) (c : Fin 8), (orbit b n c).length = n := by
  intro n
  induction n with
  | zero => intro c; rfl
  | succ n ih =>
    intro c
    simp [orbit, ih]

/-- Iterated advances compose additively. -/
theorem iterB_add (b : Fin 8 → Bool) :
    ∀ (m n : Nat) (c : Fin 8), iterB b (m + n) c = iterB b n (iterB b m c) := by
  intro m
  induction m with
  | zero =>
    intro n c
    rw [Nat.zero_add]
    rfl
  | succ m ih =>
    intro n c
    rw [show m + 1 + n = (m + n) + 1 by omega]
    rw [show iterB b ((m + n) + 1) c = iterB b (m + n) (stepB b c) from rfl]
    rw [ih n (stepB b c)]
    rfl

/-- An orbit splits at any intermediate point. -/
theorem orbit_add (b : Fin 8 → Bool) :
    ∀ (m n : Nat) (c : Fin 8),
      orbit b (m + n) c = orbit b m c ++ orbit b n (iterB b m c) := by
  intro m
  induction m with
  | zero =>
    intro n c
    rw [Nat.zero_add]
    rfl
  | succ m ih =>
    intro n c
    rw [show m + 1 + n = (m + n) + 1 by omega]
    show c :: orbit b (m + n) (stepB b c) = _
    rw [ih n (stepB b c)]
    rfl

/-- Each open channel occurs exactly once in one full scheduling
cycle. -/
theorem count_orbit_full (b : Fin 8 → Bool) (c x : Fin 8)
    (hc : b c = true) (hx : b x = true) :
    (orbit b (countB b) c).count x = 1 :=
  List.count_eq_one_of_mem (orbit_cycle b c hc).2.1
    ((orbit_cycle b c hc).2.2.1 x hx)

/-- Within a partial cycle each open channel occurs at most once. -/
theorem count_orbit_le_one (b : Fin 8 → Bool) (c x : Fin 8)
    (hc : b c = true) (hx : b x = true) (r : Nat) (hr : r ≤ countB b) :
    (orbit b r c).count x ≤ 1 := by
  have hsplit := orbit_add b r (countB b - r) c
  rw [show r + (countB b - r) = countB b by omega] at hsplit
  have hfull := count_orbit_full b c x hc hx
  rw [hsplit, List.count_append] at hfull
  omega

/-- Over `q` full cycles plus a partial cycle of `r` advances, each
open channel is requested `q` times plus its count in the partial
cycle. -/
theorem count_orbit_cycles (b : Fin 8 → Bool) (c x : Fin 8)
    (hc : b c = true) (hx : b x = true) :
    ∀ (q r : Nat), (orbit b (q * countB b + r) c).count x
      = q + (orbit b r c).count x := by
  intro q
  induction q with
  | zero =>
    intro r
    simp
  | succ q ih =>
    intro r
    rw [show (q + 1) * countB b + r = countB b + (q * countB b + r) by ring]
    rw [orbit_add b (countB b) (q * countB b + r) c, (orbit_cycle b c hc).1,
        List.count_append, count_orbit_full b c x hc hx, ih r]
    omega

/-- The hardware completion of a pending conversion leaves the target
registry and the scheduler cursor untouched and consumes the oldest
queue entry. -/
theorem completeOne_frame (s : AdcState) (r : Nat) :
    (completeOne s r).targets = s.targets ∧
    (completeOne s r).nextChannel = s.nextChannel ∧
    (completeOne s r).pending = s.pending.tail := by
  unfold completeOne
  split
  · rename_i hp
    rw [hp]
    exact ⟨rfl, rfl, rfl⟩
  · rename_i ch rest hp
    split <;> (rw [hp]; exact ⟨rfl, rfl, rfl⟩)

/-- A single `hsk_adc_service` call from an open cursor channel with an
empty hardware queue: it requests the cursor channel, advances the
cursor to the next open channel and returns `true`. -/
theorem service_step_open (s : AdcState) (h8 : s.nextChannel < 8)
    (hopen : openAt s.targets s.nextChannel = true)
    (hpend : s.pending = []) :
    hsk_adc_service s
      = some (true, some (cursorFin s.nextChannel), afterService s) := by
  have hc : bmap s.targets ⟨s.nextChannel, h8⟩ = true := by
    rw [openAt, cursorFin_lt s.nextChannel h8] at hopen
    exact hopen
  have hadv : advanceB (bmap s.targets) s.nextChannel
      = some (stepB (bmap s.targets) ⟨s.nextChannel, h8⟩) :=
    (advanceB_step (bmap s.targets) ⟨s.nextChannel, h8⟩ hc).1
  unfold hsk_adc_service
  rw [dif_neg (show ¬ ADC_CHANNELS ≤ s.nextChannel by
    simp only [ADC_CHANNELS]; omega)]
  unfold hsk_adc_request
  rw [hpend]
  dsimp only
  have hguard : ¬ (qsrOf (List.length ([] : List (Fin 8))) &&&
      ((((1 <<< CNT_FILL) - 1) <<< BIT_FILL) ||| (1 <<< BIT_EMPTY))
      = (ADC_QUEUE - 1) <<< BIT_FILL) := by decide
  rw [if_neg hguard]
  dsimp only
  rw [hadv]
  dsimp only
  unfold afterService
  rw [cursorFin_lt s.nextChannel h8]
  rfl

/-- `N` successful `hsk_adc_service` calls request exactly the orbit of
the scheduler cursor through the open channels. -/
theorem drain_run_orbit :
    ∀ (N : Nat) (s : AdcState), s.nextChannel < 8 →
      openAt s.targets s.nextChannel = true → s.pending = [] →
      ∃ s2 : AdcState, serviceDrainRun s N
        = some (orbit (bmap s.targets) N (cursorFin s.nextChannel), s2) := by
  intro N
  induction N with
  | zero =>
    intro s h8 hopen hpend
    exact ⟨s, rfl⟩
  | succ N ih =>
    intro s h8 hopen hpend
    have hstep := service_step_open s h8 hopen hpend
    have hc : bmap s.targets (cursorFin s.nextChannel) = true := hopen
    have hd : bmap s.targets
        (stepB (bmap s.targets) (cursorFin s.nextChannel)) = true :=
      (advanceB_step (bmap s.targets) (cursorFin s.nextChannel) hc).2
    have hframe := completeOne_frame (afterService s) 0
    have h8' : (completeOne (afterService s) 0).nextChannel < 8 := by
      rw [hframe.2.1]
      exact (stepB (bmap s.targets) (cursorFin s.nextChannel)).isLt
    have hopen' : openAt (completeOne (afterService s) 0).targets
        (completeOne (afterService s) 0).nextChannel = true := by
      rw [openAt, hframe.1, hframe.2.1]
      show bmap s.targets
        (cursorFin (stepB (bmap s.targets) (cursorFin s.nextChannel)).val)
        = true
      rw [cursorFin_fin]
      exact hd
    have hpend' : (completeOne (afterService s) 0).pending = [] := by
      rw [hframe.2.2]
      rfl
    obtain ⟨s2, hrun⟩ := ih (completeOne (afterService s) 0) h8' hopen' hpend'
    rw [hframe.1, hframe.2.1] at hrun
    have hrun' : serviceDrainRun (completeOne (afterService s) 0) N
        = some (orbit (bmap s.targets) N
            (stepB (bmap s.targets) (cursorFin s.nextChannel)), s2) := by
      rw [hrun]
      show some (orbit (bmap s.targets) N
          (cursorFin
            (stepB (bmap s.targets) (cursorFin s.nextChannel)).val), s2)
        = _
      rw [cursorFin_fin]
    refine ⟨s2, ?_⟩
    simp only [serviceDrainRun]
    rw [hstep]
    dsimp only
    rw [hrun']
    rfl

/-- C7: over `N` consecutive `hsk_adc_service` calls that all return
`true` — starting from an open cursor channel with an empty hardware
queue, each queued conversion completing before the next call, no
interleaved open or close — every open channel is requested either
`⌊N/K⌋` or (only when `K` does not divide `N`) `⌊N/K⌋ + 1 = ⌈N/K⌉`
times, where `K` is the number of open channels. -/
theorem claim_C7_round_robin (s : AdcState) (N : Nat)
    (h8 : s.nextChannel < 8)
    (hopen : openAt s.targets s.nextChannel = true)
    (hpend : s.pending = []) :
    ∃ tr s2, serviceDrainRun s N = some (tr, s2) ∧ tr.length = N ∧
      ∀ x : Fin 8, bmap s.targets x = true →
        tr.count x = N / countB (bmap s.targets) ∨
        (N % countB (bmap s.targets) ≠ 0 ∧
         tr.count x = N / countB (bmap s.targets) + 1) := by
  obtain ⟨s2, hrun⟩ := drain_run_orbit N s h8 hopen hpend
  refine ⟨_, s2, hrun, orbit_length (bmap s.targets) N _, ?_⟩
  intro x hx
  have hc : bmap s.targets (cursorFin s.nextChannel) = true := hopen
  have hK1 : 1 ≤ countB (bmap s.targets) :=
    (orbit_cycle (bmap s.targets) _ hc).2.2.2
  have hmodlt : N % countB (bmap s.targets) < countB (bmap s.targets) :=
    Nat.mod_lt N (by omega)
  have hcount := count_orbit_cycles (bmap s.targets)
    (cursorFin s.nextChannel) x hc hx
    (N / countB (bmap s.targets)) (N % countB (bmap s.targets))
  rw [show N / countB (bmap s.targets) * countB (bmap s.targets)
        + N % countB (bmap s.targets) = N from Nat.div_add_mod' N _] at hcount
  have hle := count_orbit_le_one (bmap s.targets) (cursorFin s.nextChannel)
    x hc hx (N % countB (bmap s.targets)) (by omega)
  rcases Nat.lt_or_ge
      ((orbit (bmap s.targets) (N % countB (bmap s.targets))
        (cursorFin s.nextChannel)).count x) 1 with hlt | hge
  · left
    omega
  · right
    have he1 : (orbit (bmap s.targets) (N % countB (bmap s.targets))
        (cursorFin s.nextChannel)).count x = 1 := by omega
    refine ⟨?_, by omega⟩
    intro h0
    rw [h0] at he1
    simp [orbit] at he1

/-- Witness for C7: channels 2 and 5 open (`pairState`), five
consecutive successful service calls. -/
theorem claim_C7_round_robin_witness :
    (pairState.nextChannel < 8 ∧
     openAt pairState.targets pairState.nextChannel = true ∧
     pairState.pending = []) ∧
    (∃ tr s2, serviceDrainRun pairState 5 = some (tr, s2) ∧
      tr.length = 5 ∧
      ∀ x : Fin 8, bmap pairState.targets x = true →
        tr.count x = 5 / countB (bmap pairState.targets) ∨
        (5 % countB (bmap pairState.targets) ≠ 0 ∧
         tr.count x = 5 / countB (bmap pairState.targets) + 1)) :=
  ⟨⟨by decide, by decide, by decide⟩,
   claim_C7_round_robin pairState 5 (by decide) (by decide) (by decide)⟩

end HskAdc
